import Mathlib

/-!
Verification of the Android pattern compiler of expo-better-haptics.

The definitions below are a shallow embedding of the Kotlin module
`ExpoBetterHapticsModule` (the `playPattern` and `playContinuous` async
functions and their helpers).  Kotlin `Double` values are modelled as
rationals, Kotlin `Long`/`Int` as `ℤ`, and the dynamically typed entries of
the incoming `Map<String, Any>` records as explicit option/sum types.  The
side effects on the `Vibrator` service are modelled as an action trace, and
the promise resolution of the async function as an `Except` value (an
uncaught platform exception rejects the promise).
-/

namespace BetterHaptics

/-- The dynamically typed value stored under the `"type"` / `"eventType"`
keys of an incoming event map: a string, a Kotlin `Int`, or anything else. -/
inductive TypeTag where
  | str (s : String)
  | int (n : ℤ)
  | other
deriving DecidableEq

/-- One entry of an event's `"parameters"` list: `it["id"] as? Int` and
`it["value"] as? Double`, each `none` when absent or of the wrong type. -/
structure HParam where
  id : Option ℤ
  value : Option ℚ
deriving DecidableEq

/-- An incoming event record, with exactly the fields `playPattern` reads:
`"type"`, `"eventType"`, `"time"`, `"parameters"`, `"duration"`. -/
structure HEvent where
  typeField : Option TypeTag
  eventTypeField : Option TypeTag
  time : ℚ
  parameters : List HParam
  duration : Option ℚ
deriving DecidableEq

instance : Inhabited HEvent := ⟨⟨none, none, 0, [], none⟩⟩

/-- Kotlin constant `HAPTIC_EVENT_TYPE_TRANSIENT = 0`. -/
def hapticEventTypeTransient : ℤ := 0

/-- Kotlin constant `HAPTIC_EVENT_TYPE_CONTINUOUS = 1`. -/
def hapticEventTypeContinuous : ℤ := 1

/-- Kotlin constant `HAPTIC_PARAMETER_INTENSITY = 0`. -/
def hapticParameterIntensity : ℤ := 0

/-- Kotlin `Double.toLong()` / `Double.toInt()`: truncation toward zero. -/
def kToLong (q : ℚ) : ℤ := if 0 ≤ q then ⌊q⌋ else ⌈q⌉

/-- Kotlin `event["type"] ?: event["eventType"]`. -/
def resolvedTypeValue (e : HEvent) : Option TypeTag :=
  match e.typeField with
  | some v => some v
  | none => e.eventTypeField

/-- The `when(eventTypeValue)` dispatch of the compiler's main loop:
`"continuous" -> 1`, `"transient" -> 0`, `is Int -> value`, `else -> 0`. -/
def eventTypeOf (e : HEvent) : ℤ :=
  match resolvedTypeValue e with
  | some (TypeTag.str s) =>
      if s = "continuous" then hapticEventTypeContinuous else hapticEventTypeTransient
  | some (TypeTag.int n) => n
  | _ => hapticEventTypeTransient

/-- `parameters.find { it["id"] as? Int == HAPTIC_PARAMETER_INTENSITY }`
followed by `?.get("value") as? Double ?: 0.5`. -/
def resolveIntensity (ps : List HParam) : ℚ :=
  match ps.find? (fun p => decide (p.id = some hapticParameterIntensity)) with
  | some p => p.value.getD (1 / 2)
  | none => 1 / 2

/-- `(intensity * 255).toInt().coerceIn(1, 255)`. -/
def amplitudeOf (intensity : ℚ) : ℤ := min 255 (max 1 (kToLong (intensity * 255)))

/-- `((event["time"] as Double) * 1000).toLong()`. -/
def eventTimeMsOf (e : HEvent) : ℤ := kToLong (e.time * 1000)

/-- `((event["duration"] as? Double ?: 0.0) * 1000).toLong().coerceAtLeast(1)`. -/
def eventDurationMsOf (e : HEvent) : ℤ := max 1 (kToLong (e.duration.getD 0 * 1000))

/-- The mutable compiler state: the `timings` and `amplitudes` lists being
grown, plus the running `lastEndTimeMs` pointer. -/
structure CompState where
  timings : List ℤ
  amplitudes : List ℤ
  lastEndTimeMs : ℤ
deriving DecidableEq

/-- The state after `timings.add(0L); amplitudes.add(0)`. -/
def initState : CompState := ⟨[0], [0], 0⟩

/-- `val gapMs = eventTimeMs - lastEndTimeMs; if (gapMs > 0) { add gap }`. -/
def withGap (st : CompState) (eventTimeMs : ℤ) : CompState :=
  if 0 < eventTimeMs - st.lastEndTimeMs then
    ⟨st.timings ++ [eventTimeMs - st.lastEndTimeMs], st.amplitudes ++ [0], st.lastEndTimeMs⟩
  else st

/-- Append one pulse segment and move the end-of-timeline pointer. -/
def pushPulse (st : CompState) (durMs amp newEnd : ℤ) : CompState :=
  ⟨st.timings ++ [durMs], st.amplitudes ++ [amp], newEnd⟩

/-- One iteration of the `for (event in sortedEvents)` loop. -/
def stepEvent (st : CompState) (e : HEvent) : CompState :=
  let tMs := eventTimeMsOf e
  let amp := amplitudeOf (resolveIntensity e.parameters)
  let st1 := withGap st tMs
  if eventTypeOf e = hapticEventTypeTransient then
    pushPulse st1 50 amp (tMs + 50)
  else if eventTypeOf e = hapticEventTypeContinuous then
    if 0 < eventDurationMsOf e then
      pushPulse st1 (eventDurationMsOf e) amp (tMs + eventDurationMsOf e)
    else st1
  else st1

/-- The comparison used by `events.sortedBy { it["time"] as Double }`. -/
def timeLE (a b : HEvent) : Prop := a.time ≤ b.time

instance : DecidableRel timeLE := fun a b => inferInstanceAs (Decidable (a.time ≤ b.time))

instance : IsTotal HEvent timeLE := ⟨fun a b => le_total a.time b.time⟩

instance : IsTrans HEvent timeLE := ⟨fun _ _ _ h1 h2 => le_trans h1 h2⟩

/-- `events.sortedBy { it["time"] as Double }` — a stable sort on the time
key, modelled by insertion sort (which is stable for this relation). -/
def sortByTime (evs : List HEvent) : List HEvent := List.insertionSort timeLE evs

/-- The whole compilation loop: sort, then fold the per-event step starting
from the initial `(0, 0)` segment. -/
def compilePattern (evs : List HEvent) : CompState :=
  (sortByTime evs).foldl stepEvent initState

/-- A call into the Android vibration primitive. -/
inductive VibAction where
  | cancel
  | vibrateWaveform (timings : List ℤ) (amplitudes : List ℤ) (repeatIdx : ℤ)
  | vibrateOneShot (durationMs : ℤ) (amplitude : ℤ)
  | vibrateLegacy (durationMs : ℤ)
  | vibrateLegacyPattern (timings : List ℤ) (repeatIdx : ℤ)
deriving DecidableEq

/-- `true` for every action that submits a vibration (everything except a
cancellation). -/
def isSubmission : VibAction → Bool
  | VibAction.cancel => false
  | _ => true

/-- The continuous-effect submission shared by `playContinuous` and the
single-continuous shortcut of `playPattern`: on SDK ≥ 30 with more than
100 ms a two-segment waveform, on SDK ≥ 26 a one-shot, else the legacy
duration-only vibrate. -/
def continuousSubmission (sdkInt durationMs amplitudeInt : ℤ) : VibAction :=
  if 26 ≤ sdkInt then
    if 30 ≤ sdkInt ∧ 100 < durationMs then
      VibAction.vibrateWaveform [0, durationMs] [0, amplitudeInt] (-1)
    else VibAction.vibrateOneShot durationMs amplitudeInt
  else VibAction.vibrateLegacy durationMs

/-- The `playContinuous` async function.  All its submissions are wrapped in
`try`/`catch`, so it always resolves `true`. -/
def playContinuous (sdkInt : ℤ) (intensity sharpness duration : ℚ) :
    List VibAction × Except Unit Bool :=
  let durationMs := max 1 (kToLong (duration * 1000))
  let amplitudeInt := amplitudeOf intensity
  if 26 ≤ sdkInt then
    if durationMs ≤ 0 then ([VibAction.cancel], Except.ok true)
    else ([VibAction.cancel, continuousSubmission sdkInt durationMs amplitudeInt],
      Except.ok true)
  else ([VibAction.cancel, VibAction.vibrateLegacy durationMs], Except.ok true)

/-- The guard of the single-continuous shortcut:
`sortedEvents[0]["type"] == "continuous" ||
 sortedEvents[0]["eventType"] == HAPTIC_EVENT_TYPE_CONTINUOUS`. -/
def isSingleContinuousShortcut (e : HEvent) : Prop :=
  e.typeField = some (TypeTag.str "continuous") ∨
    e.eventTypeField = some (TypeTag.int hapticEventTypeContinuous)

instance (e : HEvent) : Decidable (isSingleContinuousShortcut e) :=
  inferInstanceAs (Decidable (e.typeField = some (TypeTag.str "continuous") ∨
    e.eventTypeField = some (TypeTag.int hapticEventTypeContinuous)))

/-- The body of the single-continuous shortcut.  Its submissions are wrapped
in `try`/`catch`, so the call resolves `true`. -/
def singleContinuousPath (sdkInt : ℤ) (e : HEvent) : List VibAction × Except Unit Bool :=
  ([VibAction.cancel,
    continuousSubmission sdkInt (eventDurationMsOf e)
      (amplitudeOf (resolveIntensity e.parameters))],
    Except.ok true)

/-- The pre-API-26 fallback loop that collapses the amplitude waveform into
alternating on/off timings, mutating `timings[i+1] += timings[i]` for the
segments it merges. -/
def simplify : List ℤ → List ℤ → Bool → List ℤ
  | t :: ts, a :: amps, isOn =>
    if 0 < a ∧ isOn = false then t :: simplify ts amps true
    else if a = 0 ∧ isOn = true then t :: simplify ts amps false
    else
      match ts with
      | [] => []
      | t2 :: ts2 => simplify ((t2 + t) :: ts2) amps isOn
  | _, _, _ => []

/-- The generic submission tail of `playPattern` (after the cancel): the
API-26 waveform submission is wrapped in `try`/`catch` (it resolves `true`
even when the primitive throws), while the legacy pattern submission is not
(a throw there rejects the promise). -/
def genericSubmit (sdkInt : ℤ) (throws : Bool) (st : CompState) :
    List VibAction × Except Unit Bool :=
  if 26 ≤ sdkInt ∧ st.timings ≠ [] ∧ st.amplitudes ≠ [] then
    ([VibAction.cancel, VibAction.vibrateWaveform st.timings st.amplitudes (-1)],
      Except.ok true)
  else if 1 < st.timings.length then
    let simplified := simplify st.timings st.amplitudes false
    if simplified = [] then ([VibAction.cancel], Except.ok true)
    else ([VibAction.cancel, VibAction.vibrateLegacyPattern simplified (-1)],
      if throws then Except.error () else Except.ok true)
  else ([VibAction.cancel], Except.ok true)

/-- The `playPattern` async function: empty input resolves immediately,
otherwise cancel, sort, compile, and either take the single-continuous
shortcut or submit the compiled waveform.  `throws` says whether the
platform primitive rejects the submission by throwing. -/
def playPattern (sdkInt : ℤ) (throws : Bool) (events : List HEvent) :
    List VibAction × Except Unit Bool :=
  if events = [] then ([], Except.ok true)
  else
    let sorted := sortByTime events
    let st := sorted.foldl stepEvent initState
    if sorted.length = 1 ∧ isSingleContinuousShortcut sorted.headI then
      singleContinuousPath sdkInt sorted.headI
    else genericSubmit sdkInt throws st

/-- Concrete transient event with an explicit intensity parameter. -/
def evTransient (t i : ℚ) : HEvent :=
  ⟨some (TypeTag.str "transient"), none, t, [⟨some 0, some i⟩], none⟩

/-- Concrete transient event relying on the default intensity. -/
def evTransientDefault (t : ℚ) : HEvent :=
  ⟨some (TypeTag.str "transient"), none, t, [], none⟩

/-- Concrete continuous event (string-tagged) with intensity and duration. -/
def evContinuous (t i d : ℚ) : HEvent :=
  ⟨some (TypeTag.str "continuous"), none, t, [⟨some 0, some i⟩], some d⟩

/-- The single continuous event `Continuous(intensity = i, time = 0,
duration = d)` used by the shortcut-equivalence property. -/
def mkContinuousEvent (i d : ℚ) : HEvent := evContinuous 0 i d

/-- An amplitude the compiler may emit: silence, or a clamped pulse level. -/
def ampOK (a : ℤ) : Prop := a = 0 ∨ (1 ≤ a ∧ a ≤ 255)

/-- The loop invariant of the compilation fold: both lists share a length,
both start with the initial `0` entry, durations are non-negative and
amplitudes are silence or clamped pulse levels. -/
def StInv (st : CompState) : Prop :=
  st.timings.length = st.amplitudes.length ∧
    (∃ ts, st.timings = 0 :: ts) ∧ (∃ amps, st.amplitudes = 0 :: amps) ∧
    List.Forall (fun t => 0 ≤ t) st.timings ∧ List.Forall ampOK st.amplitudes

theorem forall_append_one (p : ℤ → Prop) (x : ℤ) :
    ∀ l : List ℤ, List.Forall p l → p x → List.Forall p (l ++ [x])
  | [], _, hx => by simpa using hx
  | a :: t, hl, hx => by
    rw [List.forall_cons] at hl
    rw [List.cons_append, List.forall_cons]
    exact ⟨hl.1, forall_append_one p x t hl.2 hx⟩

theorem amplitudeOf_ge_one (i : ℚ) : 1 ≤ amplitudeOf i :=
  le_min (by norm_num) (le_max_left 1 _)

theorem amplitudeOf_le_255 (i : ℚ) : amplitudeOf i ≤ 255 := min_le_left 255 _

theorem ampOK_amplitudeOf (i : ℚ) : ampOK (amplitudeOf i) :=
  Or.inr ⟨amplitudeOf_ge_one i, amplitudeOf_le_255 i⟩

theorem eventDurationMsOf_pos (e : HEvent) : 0 < eventDurationMsOf e :=
  lt_of_lt_of_le zero_lt_one (le_max_left 1 _)

theorem stInv_init : StInv initState := by
  refine ⟨rfl, ⟨[], rfl⟩, ⟨[], rfl⟩, ?_, ?_⟩ <;> simp [initState, List.Forall, ampOK]

theorem stInv_withGap (st : CompState) (tMs : ℤ) (h : StInv st) : StInv (withGap st tMs) := by
  unfold withGap
  split_ifs with hg
  · obtain ⟨hlen, ⟨ts, hts⟩, ⟨amps, hamps⟩, hft, hfa⟩ := h
    exact ⟨by simp [hlen], ⟨ts ++ [tMs - st.lastEndTimeMs], by simp [hts]⟩,
      ⟨amps ++ [0], by simp [hamps]⟩,
      forall_append_one _ _ _ hft (le_of_lt hg),
      forall_append_one _ _ _ hfa (Or.inl rfl)⟩
  · exact h

theorem stInv_pushPulse (st : CompState) (d a n : ℤ) (h : StInv st) (hd : 0 ≤ d)
    (ha : ampOK a) : StInv (pushPulse st d a n) := by
  obtain ⟨hlen, ⟨ts, hts⟩, ⟨amps, hamps⟩, hft, hfa⟩ := h
  exact ⟨by simp [pushPulse, hlen], ⟨ts ++ [d], by simp [pushPulse, hts]⟩,
    ⟨amps ++ [a], by simp [pushPulse, hamps]⟩,
    forall_append_one _ _ _ hft hd, forall_append_one _ _ _ hfa ha⟩

theorem stInv_step (st : CompState) (e : HEvent) (h : StInv st) : StInv (stepEvent st e) := by
  rw [stepEvent]
  split_ifs with h1 h2 h3
  · exact stInv_pushPulse _ _ _ _ (stInv_withGap st _ h) (by norm_num)
      (ampOK_amplitudeOf _)
  · exact stInv_pushPulse _ _ _ _ (stInv_withGap st _ h) (le_of_lt h3)
      (ampOK_amplitudeOf _)
  · exact stInv_withGap st _ h
  · exact stInv_withGap st _ h

theorem stInv_foldl : ∀ (l : List HEvent) (st : CompState), StInv st →
    StInv (l.foldl stepEvent st)
  | [], _, h => h
  | e :: t, st, h => stInv_foldl t _ (stInv_step st e h)

theorem stInv_compile (evs : List HEvent) : StInv (compilePattern evs) :=
  stInv_foldl _ _ stInv_init

theorem compile_timings_shape (evs : List HEvent) :
    ∃ ts, (compilePattern evs).timings = 0 :: ts := (stInv_compile evs).2.1

theorem compile_amplitudes_shape (evs : List HEvent) :
    ∃ amps, (compilePattern evs).amplitudes = 0 :: amps := (stInv_compile evs).2.2.1

theorem stepEvent_transient (st : CompState) (e : HEvent)
    (h : eventTypeOf e = hapticEventTypeTransient) :
    stepEvent st e =
      pushPulse (withGap st (eventTimeMsOf e)) 50
        (amplitudeOf (resolveIntensity e.parameters)) (eventTimeMsOf e + 50) := by
  rw [stepEvent]
  simp [h]

theorem stepEvent_continuous (st : CompState) (e : HEvent)
    (h : eventTypeOf e = hapticEventTypeContinuous) :
    stepEvent st e =
      pushPulse (withGap st (eventTimeMsOf e)) (eventDurationMsOf e)
        (amplitudeOf (resolveIntensity e.parameters))
        (eventTimeMsOf e + eventDurationMsOf e) := by
  have h1 : ¬ eventTypeOf e = hapticEventTypeTransient := by
    rw [h]; simp [hapticEventTypeTransient, hapticEventTypeContinuous]
  rw [stepEvent]
  simp [h, h1, eventDurationMsOf_pos e, hapticEventTypeTransient, hapticEventTypeContinuous]

theorem eventTypeOf_evTransient (t i : ℚ) :
    eventTypeOf (evTransient t i) = hapticEventTypeTransient := by
  simp [eventTypeOf, resolvedTypeValue, evTransient]

theorem eventTypeOf_evTransientDefault (t : ℚ) :
    eventTypeOf (evTransientDefault t) = hapticEventTypeTransient := by
  simp [eventTypeOf, resolvedTypeValue, evTransientDefault]

theorem eventTypeOf_evContinuous (t i d : ℚ) :
    eventTypeOf (evContinuous t i d) = hapticEventTypeContinuous := by
  simp [eventTypeOf, resolvedTypeValue, evContinuous]

theorem resolveIntensity_single (i : ℚ) :
    resolveIntensity [⟨some hapticParameterIntensity, some i⟩] = i := by
  simp [resolveIntensity, List.find?]

theorem resolveIntensity_empty : resolveIntensity [] = 1 / 2 := by
  simp [resolveIntensity, List.find?]

theorem kToLong_nonpos (q : ℚ) (h : q ≤ 0) : kToLong q ≤ 0 := by
  rw [kToLong]
  split_ifs
  · exact le_trans (Int.floor_le_floor h) (by simp)
  · exact Int.ceil_le.mpr (by exact_mod_cast h)

theorem eventDurationMsOf_of_nonpos (e : HEvent) (h : e.duration.getD 0 ≤ 0) :
    eventDurationMsOf e = 1 := by
  rw [eventDurationMsOf]
  have hq : e.duration.getD 0 * 1000 ≤ 0 :=
    mul_nonpos_iff.mpr (Or.inr ⟨h, by norm_num⟩)
  exact max_eq_left (le_trans (kToLong_nonpos _ hq) zero_le_one)

theorem playPattern_shortcut (sdkInt : ℤ) (throws : Bool) (evs : List HEvent) (e : HEvent)
    (hne : evs ≠ []) (hs : sortByTime evs = [e]) (hc : isSingleContinuousShortcut e) :
    playPattern sdkInt throws evs = singleContinuousPath sdkInt e := by
  rw [playPattern]
  simp [hne, hs, hc]

theorem playPattern_generic (sdkInt : ℤ) (throws : Bool) (evs : List HEvent)
    (hne : evs ≠ [])
    (hnot : ¬ ((sortByTime evs).length = 1 ∧
      isSingleContinuousShortcut (sortByTime evs).headI)) :
    playPattern sdkInt throws evs = genericSubmit sdkInt throws (compilePattern evs) := by
  rw [playPattern]
  simp only [if_neg hne, if_neg hnot]
  rfl

theorem genericSubmit_api26 (sdkInt : ℤ) (throws : Bool) (st : CompState)
    (h26 : 26 ≤ sdkInt) (ht : st.timings ≠ []) (ha : st.amplitudes ≠ []) :
    genericSubmit sdkInt throws st =
      ([VibAction.cancel, VibAction.vibrateWaveform st.timings st.amplitudes (-1)],
        Except.ok true) := by
  rw [genericSubmit]
  simp [h26, ht, ha]

theorem sorted_perm_nodup_eq :
    ∀ l₁ l₂ : List HEvent, l₁.Perm l₂ → List.Sorted timeLE l₁ → List.Sorted timeLE l₂ →
      (l₁.map HEvent.time).Nodup → l₁ = l₂ := by
  intro l₁
  induction l₁ with
  | nil => intro l₂ hp _ _ _; exact (List.Perm.nil_eq hp).symm ▸ rfl
  | cons a t₁ ih =>
    intro l₂ hp hs₁ hs₂ hnd
    cases l₂ with
    | nil => exact absurd hp.eq_nil (by simp)
    | cons b t₂ =>
      have hab : a = b := by
        by_contra hne
        have ha2 : a ∈ b :: t₂ := hp.mem_iff.mp (List.mem_cons_self a t₁)
        have hb1 : b ∈ a :: t₁ := hp.symm.mem_iff.mp (List.mem_cons_self b t₂)
        have hat2 : a ∈ t₂ := by
          cases List.mem_cons.mp ha2 with
          | inl h => exact absurd h hne
          | inr h => exact h
        have hbt1 : b ∈ t₁ := by
          cases List.mem_cons.mp hb1 with
          | inl h => exact absurd h.symm hne
          | inr h => exact h
        have h1 : timeLE a b := List.rel_of_sorted_cons hs₁ b hbt1
        have h2 : timeLE b a := List.rel_of_sorted_cons hs₂ a hat2
        have heq : a.time = b.time := le_antisymm h1 h2
        have hmem : b.time ∈ t₁.map HEvent.time := List.mem_map_of_mem HEvent.time hbt1
        exact (List.nodup_cons.mp hnd).1 (heq ▸ hmem)
      subst hab
      have hpt : t₁.Perm t₂ := hp.cons_inv
      rw [ih t₂ hpt hs₁.of_cons hs₂.of_cons (List.nodup_cons.mp hnd).2]

theorem sortByTime_eq_of_perm (l₁ l₂ : List HEvent) (hp : l₁.Perm l₂)
    (hnd : (l₁.map HEvent.time).Nodup) : sortByTime l₁ = sortByTime l₂ := by
  apply sorted_perm_nodup_eq
  · exact (List.perm_insertionSort timeLE l₁).trans
      (hp.trans (List.perm_insertionSort timeLE l₂).symm)
  · exact List.sorted_insertionSort timeLE l₁
  · exact List.sorted_insertionSort timeLE l₂
  · exact ((List.perm_insertionSort timeLE l₁).map HEvent.time).nodup_iff.mpr hnd

theorem genericSubmit_head (sdkInt : ℤ) (throws : Bool) (st : CompState) :
    (genericSubmit sdkInt throws st).1.head? = some VibAction.cancel := by
  rw [genericSubmit]
  split_ifs <;> try simp
  all_goals split_ifs <;> simp

theorem isSubmission_continuousSubmission (sdkInt durationMs amplitudeInt : ℤ) :
    isSubmission (continuousSubmission sdkInt durationMs amplitudeInt) = true := by
  rw [continuousSubmission]
  split_ifs <;> rfl

theorem isSubmission_cancel : isSubmission VibAction.cancel = false := rfl

/-- C7: for the empty event list, `playPattern` performs no cancellation and
no submission to the vibration primitive (the action trace is empty) and
reports success (the promise resolves `true`). -/
theorem c7_empty_list_no_cancel_no_submission_success (sdkInt : ℤ) (throws : Bool) :
    playPattern sdkInt throws [] = ([], Except.ok true) := by
  rw [playPattern]
  simp

/-- C6 counterexample: the claim says every `playPattern` call, including one
with an empty event list, cancels the in-flight vibration; but on the empty
list the code returns before `vibrator?.cancel()`, so the trace is empty and
contains no cancellation. -/
theorem c6_counterexample_empty_list_does_not_cancel :
    (playPattern 30 false []).1 = [] ∧
    (playPattern 30 false []).1.head? ≠ some VibAction.cancel := by
  constructor <;> simp [playPattern]

/-- C6 (amended): every `playPattern` call with a non-empty event list first
cancels any in-flight vibration — the first action of its trace is the
cancellation, before any submission; a call with an empty list performs no
cancellation at all. -/
theorem c6_nonempty_call_cancels_first (sdkInt : ℤ) (throws : Bool)
    (evs : List HEvent) (hne : evs ≠ []) :
    (playPattern sdkInt throws evs).1.head? = some VibAction.cancel := by
  by_cases hc : (sortByTime evs).length = 1 ∧
      isSingleContinuousShortcut (sortByTime evs).headI
  · obtain ⟨e, he⟩ := List.length_eq_one.mp hc.1
    rw [playPattern_shortcut sdkInt throws evs e hne he (by rw [he] at hc; simpa using hc.2)]
    rfl
  · rw [playPattern_generic _ _ _ hne hc]
    exact genericSubmit_head _ _ _

theorem c6_witness :
    ([evTransientDefault 0] : List HEvent) ≠ [] ∧
    (playPattern 30 false [evTransientDefault 0]).1.head? = some VibAction.cancel :=
  ⟨by simp, c6_nonempty_call_cancels_first 30 false [evTransientDefault 0] (by simp)⟩

/-- C1 counterexample: the claim says a submission failure is surfaced to the
caller as a failed operation; but on the API ≥ 26 waveform path the Kotlin
code catches the exception, logs it, and still resolves `true` — here a
throwing primitive (`throws = true`) still yields a successful result. -/
theorem c1_counterexample_failure_resolves_true :
    (playPattern 30 true [evTransientDefault 0]).2 = Except.ok true ∧
    (playPattern 30 true [evTransientDefault 0]).2 ≠ Except.error () := by
  have hnot : ¬ ((sortByTime [evTransientDefault 0]).length = 1 ∧
      isSingleContinuousShortcut (sortByTime [evTransientDefault 0]).headI) := by
    rintro ⟨-, hc⟩
    simp [sortByTime, evTransientDefault, isSingleContinuousShortcut] at hc
  rw [playPattern_generic 30 true _ (by simp) hnot]
  obtain ⟨ts, hts⟩ := compile_timings_shape [evTransientDefault 0]
  obtain ⟨amps, hamps⟩ := compile_amplitudes_shape [evTransientDefault 0]
  rw [genericSubmit_api26 30 true _ (by norm_num) (by rw [hts]; simp) (by rw [hamps]; simp)]
  simp

/-- C1 (amended): on the API ≥ 26 path a platform rejection of the compiled
waveform is caught and swallowed — `playPattern` resolves `true` (success)
whether or not the primitive throws, and it never retries: the trace holds
at most one submission. -/
theorem c1_api26_swallows_failure_no_retry (sdkInt : ℤ) (throws : Bool)
    (evs : List HEvent) (h26 : 26 ≤ sdkInt) :
    (playPattern sdkInt throws evs).2 = Except.ok true ∧
    ((playPattern sdkInt throws evs).1.filter isSubmission).length ≤ 1 := by
  by_cases hne : evs = []
  · subst hne
    rw [c7_empty_list_no_cancel_no_submission_success]
    simp
  · by_cases hc : (sortByTime evs).length = 1 ∧
        isSingleContinuousShortcut (sortByTime evs).headI
    · obtain ⟨e, he⟩ := List.length_eq_one.mp hc.1
      rw [playPattern_shortcut sdkInt throws evs e hne he (by rw [he] at hc; simpa using hc.2)]
      refine ⟨rfl, ?_⟩
      rw [singleContinuousPath]
      simp [List.filter_cons, isSubmission_continuousSubmission, isSubmission_cancel]
    · rw [playPattern_generic _ _ _ hne hc]
      obtain ⟨ts, hts⟩ := compile_timings_shape evs
      obtain ⟨amps, hamps⟩ := compile_amplitudes_shape evs
      rw [genericSubmit_api26 _ _ _ h26 (by rw [hts]; simp) (by rw [hamps]; simp)]
      refine ⟨rfl, ?_⟩
      simp [isSubmission]

theorem c1_witness :
    (26 : ℤ) ≤ 30 ∧
    ((playPattern 30 true [evTransientDefault 0]).2 = Except.ok true ∧
      ((playPattern 30 true [evTransientDefault 0]).1.filter isSubmission).length ≤ 1) :=
  ⟨by norm_num, c1_api26_swallows_failure_no_retry 30 true [evTransientDefault 0] (by norm_num)⟩

/-- C2 counterexample: the claim says a Continuous event with duration ≤ 0
appends no pulse and leaves `lastEndTimeMs` alone; but the code coerces the
duration to at least 1 ms, so after a 50 ms transient ending at 50 ms, a
zero-duration continuous event at t = 0.1 s appends a fourth (1 ms) segment
and advances the pointer to 101 ms. -/
theorem c2_counterexample_zero_duration_appends_pulse :
    compilePattern [evTransientDefault 0, evContinuous (1 / 10) (1 / 2) 0] =
      ⟨[0, 50, 50, 1], [0, 127, 0, 127], 101⟩ ∧
    (101 : ℤ) ≠ 50 := by
  constructor
  · have hsort : sortByTime [evTransientDefault 0, evContinuous (1 / 10) (1 / 2) 0] =
        [evTransientDefault 0, evContinuous (1 / 10) (1 / 2) 0] := by
      norm_num [sortByTime, timeLE, evTransientDefault, evContinuous]
    rw [compilePattern, hsort]
    simp only [List.foldl]
    rw [stepEvent_transient _ _ (eventTypeOf_evTransientDefault 0),
      stepEvent_continuous _ _ (eventTypeOf_evContinuous (1 / 10) (1 / 2) 0)]
    norm_num [withGap, pushPulse, initState, eventTimeMsOf, eventDurationMsOf, kToLong,
      amplitudeOf, resolveIntensity, List.find?, hapticParameterIntensity,
      evTransientDefault, evContinuous]
  · norm_num

/-- C2 (amended): a Continuous event whose duration is absent or ≤ 0 does
not vanish from the timeline — its duration is coerced to the minimum of
1 ms, so the compiler appends a 1 ms pulse at the resolved amplitude and
advances `lastEndTimeMs` to the event's start time plus 1 ms (after the
usual gap handling); the rest of the timeline is otherwise unaffected. -/
theorem c2_nonpositive_duration_emits_one_ms_pulse (st : CompState) (e : HEvent)
    (htype : eventTypeOf e = hapticEventTypeContinuous)
    (hdur : e.duration.getD 0 ≤ 0) :
    stepEvent st e =
      pushPulse (withGap st (eventTimeMsOf e)) 1
        (amplitudeOf (resolveIntensity e.parameters)) (eventTimeMsOf e + 1) := by
  rw [stepEvent_continuous st e htype, eventDurationMsOf_of_nonpos e hdur]

theorem c2_witness :
    eventTypeOf (evContinuous 0 (1 / 2) 0) = hapticEventTypeContinuous ∧
    (evContinuous 0 (1 / 2) 0).duration.getD 0 ≤ 0 ∧
    stepEvent initState (evContinuous 0 (1 / 2) 0) =
      pushPulse (withGap initState (eventTimeMsOf (evContinuous 0 (1 / 2) 0))) 1
        (amplitudeOf (resolveIntensity (evContinuous 0 (1 / 2) 0).parameters))
        (eventTimeMsOf (evContinuous 0 (1 / 2) 0) + 1) :=
  ⟨eventTypeOf_evContinuous 0 (1 / 2) 0, by simp [evContinuous],
    c2_nonpositive_duration_emits_one_ms_pulse initState (evContinuous 0 (1 / 2) 0)
      (eventTypeOf_evContinuous 0 (1 / 2) 0) (by simp [evContinuous])⟩

/-- C3 counterexample: the claim says the emitted amplitude is
`round(intensity * 255)` clamped, so intensity 0.5 would give 128; but the
Kotlin code truncates (`Double.toInt()` rounds toward zero), so intensity
0.5 gives amplitude 127, not 128. -/
theorem c3_counterexample_half_intensity_gives_127 :
    amplitudeOf (1 / 2) = 127 ∧ amplitudeOf (1 / 2) ≠ 128 := by
  constructor <;> norm_num [amplitudeOf, kToLong]

/-- C3 (amended): the emitted pulse amplitude is `intensity * 255` truncated
toward zero and clamped into [1, 255] (so it is never 0 for a pulse), with
intensity defaulting to 0.5 when no intensity parameter is present: in
particular intensity 0 yields 1, intensity 0.5 yields 127 (truncation, not
rounding), intensity 1 yields 255, and every amplitude the compiler emits is
either 0 (a gap) or lies in [1, 255]. -/
theorem c3_amplitude_truncated_and_clamped :
    (∀ i : ℚ, 1 ≤ amplitudeOf i ∧ amplitudeOf i ≤ 255) ∧
    amplitudeOf 0 = 1 ∧ amplitudeOf (1 / 2) = 127 ∧ amplitudeOf 1 = 255 ∧
    resolveIntensity [] = 1 / 2 ∧
    (∀ evs : List HEvent, List.Forall ampOK (compilePattern evs).amplitudes) :=
  ⟨fun i => ⟨amplitudeOf_ge_one i, amplitudeOf_le_255 i⟩,
    by norm_num [amplitudeOf, kToLong],
    by norm_num [amplitudeOf, kToLong],
    by norm_num [amplitudeOf, kToLong],
    resolveIntensity_empty,
    fun evs => (stInv_compile evs).2.2.2.2⟩

/-- C4 counterexample: the claim says the single-continuous shortcut submits
amplitude `round(I * 255)` clamped, so I = 0.5 would give 128; but for
`[Continuous(intensity = 0.5, time = 0, duration = 0.05)]` on SDK 30 the
code submits a one-shot of 50 ms at amplitude 127 (truncation), not 128. -/
theorem c4_counterexample_truncated_amplitude :
    (playPattern 30 false [mkContinuousEvent (1 / 2) (1 / 20)]).1 =
      [VibAction.cancel, VibAction.vibrateOneShot 50 127] ∧
    (playPattern 30 false [mkContinuousEvent (1 / 2) (1 / 20)]).1 ≠
      [VibAction.cancel, VibAction.vibrateOneShot 50 128] := by
  have h : (playPattern 30 false [mkContinuousEvent (1 / 2) (1 / 20)]).1 =
      [VibAction.cancel, VibAction.vibrateOneShot 50 127] := by
    rw [playPattern_shortcut 30 false [mkContinuousEvent (1 / 2) (1 / 20)]
      (mkContinuousEvent (1 / 2) (1 / 20)) (by simp) rfl (Or.inl rfl)]
    rw [singleContinuousPath]
    norm_num [mkContinuousEvent, evContinuous, eventDurationMsOf, kToLong, amplitudeOf,
      resolveIntensity, List.find?, hapticParameterIntensity, continuousSubmission]
  refine ⟨h, ?_⟩
  rw [h]
  decide

/-- C4 (amended): for a singleton `[Continuous(intensity = I, time = 0,
duration = D)]` the shortcut bypasses the generic waveform path and its
whole observable behaviour (trace and result) equals the direct
`playContinuous` call, whose submission carries amplitude `I * 255`
truncated toward zero and clamped to [1, 255] and duration
`max(1, trunc(D * 1000))` ms. -/
theorem c4_single_continuous_equals_playContinuous (sdkInt : ℤ) (throws : Bool)
    (i d sharp : ℚ) :
    playPattern sdkInt throws [mkContinuousEvent i d] = playContinuous sdkInt i sharp d ∧
    playContinuous sdkInt i sharp d =
      ([VibAction.cancel,
        continuousSubmission sdkInt (max 1 (kToLong (d * 1000)))
          (min 255 (max 1 (kToLong (i * 255))))],
        Except.ok true) := by
  have hdurpos : ¬ (max 1 (kToLong (d * 1000)) ≤ 0) :=
    not_le.mpr (lt_of_lt_of_le zero_lt_one (le_max_left _ _))
  have hPC : playContinuous sdkInt i sharp d =
      ([VibAction.cancel,
        continuousSubmission sdkInt (max 1 (kToLong (d * 1000))) (amplitudeOf i)],
        Except.ok true) := by
    rw [playContinuous]
    by_cases h26 : 26 ≤ sdkInt
    · simp [h26, hdurpos]
    · simp [h26, continuousSubmission]
  constructor
  · rw [playPattern_shortcut sdkInt throws [mkContinuousEvent i d] (mkContinuousEvent i d)
      (by simp) rfl (Or.inl rfl)]
    rw [singleContinuousPath, hPC]
    have hri : resolveIntensity [⟨some 0, some i⟩] = i := resolveIntensity_single i
    simp [mkContinuousEvent, evContinuous, eventDurationMsOf, hri]
  · rw [hPC, amplitudeOf]

/-- C5 counterexample: the claim says any two permutations of the same event
multiset compile to the same timeline even with equal time values; but the
sort is stable, so two transients at t = 0 with intensities 1 and 0 keep
their input order: one ordering emits amplitudes [0, 255, 1], the swapped
ordering emits [0, 1, 255]. -/
theorem c5_counterexample_equal_times_order_dependent :
    List.Perm [evTransient 0 1, evTransient 0 0] [evTransient 0 0, evTransient 0 1] ∧
    compilePattern [evTransient 0 1, evTransient 0 0] ≠
      compilePattern [evTransient 0 0, evTransient 0 1] := by
  have h1 : compilePattern [evTransient 0 1, evTransient 0 0] =
      ⟨[0, 50, 50], [0, 255, 1], 50⟩ := by
    have hsort : sortByTime [evTransient 0 1, evTransient 0 0] =
        [evTransient 0 1, evTransient 0 0] := by
      norm_num [sortByTime, timeLE, evTransient]
    rw [compilePattern, hsort]
    simp only [List.foldl]
    rw [stepEvent_transient _ _ (eventTypeOf_evTransient 0 1),
      stepEvent_transient _ _ (eventTypeOf_evTransient 0 0)]
    norm_num [withGap, pushPulse, initState, eventTimeMsOf, kToLong, amplitudeOf,
      resolveIntensity, List.find?, hapticParameterIntensity, evTransient]
  have h2 : compilePattern [evTransient 0 0, evTransient 0 1] =
      ⟨[0, 50, 50], [0, 1, 255], 50⟩ := by
    have hsort : sortByTime [evTransient 0 0, evTransient 0 1] =
        [evTransient 0 0, evTransient 0 1] := by
      norm_num [sortByTime, timeLE, evTransient]
    rw [compilePattern, hsort]
    simp only [List.foldl]
    rw [stepEvent_transient _ _ (eventTypeOf_evTransient 0 0),
      stepEvent_transient _ _ (eventTypeOf_evTransient 0 1)]
    norm_num [withGap, pushPulse, initState, eventTimeMsOf, kToLong, amplitudeOf,
      resolveIntensity, List.find?, hapticParameterIntensity, evTransient]
  refine ⟨List.Perm.swap (evTransient 0 0) (evTransient 0 1) [], ?_⟩
  rw [h1, h2]
  decide

/-- C5 (amended): two input lists that are permutations of the same multiset
of events compile to an identical waveform timeline provided the events
carry pairwise distinct time values; with ties the stable sort preserves the
input order and the timelines may differ. -/
theorem c5_perm_with_distinct_times_compiles_equal (l₁ l₂ : List HEvent)
    (hp : l₁.Perm l₂) (hnd : (l₁.map HEvent.time).Nodup) :
    compilePattern l₁ = compilePattern l₂ := by
  rw [compilePattern, compilePattern, sortByTime_eq_of_perm l₁ l₂ hp hnd]

theorem c5_witness :
    compilePattern [evTransient (1 / 10) 0, evTransient 0 1] =
      compilePattern [evTransient 0 1, evTransient (1 / 10) 0] :=
  c5_perm_with_distinct_times_compiles_equal _ _
    (List.Perm.swap (evTransient 0 1) (evTransient (1 / 10) 0) [])
    (by norm_num [evTransient])

/-- C8: for every input list the compiled state satisfies: the timings and
amplitudes lists have the same length, every segment duration is
non-negative, every amplitude is 0 (a gap) or a clamped pulse level in
[1, 255], and the timeline starts with the extra leading 0 ms / amplitude 0
segment; moreover the gap helper only ever appends amplitude 0. -/
theorem c8_compiled_timeline_invariants :
    (∀ evs : List HEvent,
      (compilePattern evs).timings.length = (compilePattern evs).amplitudes.length ∧
      List.Forall (fun t => 0 ≤ t) (compilePattern evs).timings ∧
      List.Forall ampOK (compilePattern evs).amplitudes ∧
      (compilePattern evs).timings.head? = some 0 ∧
      (compilePattern evs).amplitudes.head? = some 0) ∧
    (∀ (st : CompState) (tMs : ℤ),
      (withGap st tMs).amplitudes = st.amplitudes ∨
      (withGap st tMs).amplitudes = st.amplitudes ++ [0]) := by
  constructor
  · intro evs
    obtain ⟨hlen, ⟨ts, hts⟩, ⟨amps, hamps⟩, hft, hfa⟩ := stInv_compile evs
    exact ⟨hlen, hft, hfa, by rw [hts]; rfl, by rw [hamps]; rfl⟩
  · intro st tMs
    rw [withGap]
    split_ifs
    · exact Or.inr rfl
    · exact Or.inl rfl

/-- C9: a singleton event that carries its Continuous kind as the Kotlin
integer 1 under the `"type"` key (and no `"eventType"` key) is classified as
Continuous by the compiler's main loop, yet the shortcut guard — which only
accepts the string `"continuous"` under `"type"` or the integer under
`"eventType"` — fails, so the event is played through the generic waveform
path instead of the direct continuous submission. -/
theorem c9_numeric_type_key_misses_shortcut (sdkInt : ℤ) (throws : Bool) (e : HEvent)
    (h26 : 26 ≤ sdkInt) (ht : e.typeField = some (TypeTag.int 1))
    (he : e.eventTypeField = none) :
    eventTypeOf e = hapticEventTypeContinuous ∧
    playPattern sdkInt throws [e] =
      ([VibAction.cancel,
        VibAction.vibrateWaveform (compilePattern [e]).timings
          (compilePattern [e]).amplitudes (-1)],
        Except.ok true) := by
  constructor
  · simp [eventTypeOf, resolvedTypeValue, ht, hapticEventTypeContinuous]
  · have hnot : ¬ ((sortByTime [e]).length = 1 ∧
        isSingleContinuousShortcut (sortByTime [e]).headI) := by
      rintro ⟨-, hc⟩
      simp [sortByTime, isSingleContinuousShortcut, ht, he] at hc
    rw [playPattern_generic sdkInt throws [e] (by simp) hnot]
    obtain ⟨ts, hts⟩ := compile_timings_shape [e]
    obtain ⟨amps, hamps⟩ := compile_amplitudes_shape [e]
    rw [genericSubmit_api26 sdkInt throws _ h26 (by rw [hts]; simp) (by rw [hamps]; simp)]

/-- Concrete event for the C9 witness: Continuous expressed as integer 1
under the `"type"` key. -/
def evNumericContinuous : HEvent := ⟨some (TypeTag.int 1), none, 0, [], some (1 / 5)⟩

theorem c9_witness :
    eventTypeOf evNumericContinuous = hapticEventTypeContinuous ∧
    playPattern 30 false [evNumericContinuous] =
      ([VibAction.cancel,
        VibAction.vibrateWaveform (compilePattern [evNumericContinuous]).timings
          (compilePattern [evNumericContinuous]).amplitudes (-1)],
        Except.ok true) :=
  c9_numeric_type_key_misses_shortcut 30 false evNumericContinuous (by norm_num)
    rfl rfl

/-- C10: an event whose resolved type value is neither the string
`"transient"`, the string `"continuous"`, nor a Kotlin integer (another
string, another value, or no type field at all) falls into the `else`
branch of the dispatch and is treated as Transient — the compiler emits the
50 ms pulse for it instead of dropping it or failing. -/
theorem c10_unknown_type_treated_as_transient (st : CompState) (e : HEvent)
    (hstr : ∀ s, resolvedTypeValue e = some (TypeTag.str s) →
      s ≠ "transient" ∧ s ≠ "continuous")
    (hint : ∀ n : ℤ, resolvedTypeValue e ≠ some (TypeTag.int n)) :
    eventTypeOf e = hapticEventTypeTransient ∧
    stepEvent st e =
      pushPulse (withGap st (eventTimeMsOf e)) 50
        (amplitudeOf (resolveIntensity e.parameters)) (eventTimeMsOf e + 50) := by
  have htyp : eventTypeOf e = hapticEventTypeTransient := by
    cases hrv : resolvedTypeValue e with
    | none => simp [eventTypeOf, hrv]
    | some tag =>
      cases tag with
      | str s =>
        have hs := hstr s hrv
        simp [eventTypeOf, hrv, hs.2]
      | int n => exact absurd hrv (hint n)
      | other => simp [eventTypeOf, hrv]
  exact ⟨htyp, stepEvent_transient st e htyp⟩

/-- Concrete event for the C10 witness: an unrecognised string type tag. -/
def evUnknownTag : HEvent := ⟨some (TypeTag.str "tap"), none, 0, [], none⟩

theorem c10_witness :
    eventTypeOf evUnknownTag = hapticEventTypeTransient ∧
    stepEvent initState evUnknownTag =
      pushPulse (withGap initState (eventTimeMsOf evUnknownTag)) 50
        (amplitudeOf (resolveIntensity evUnknownTag.parameters))
        (eventTimeMsOf evUnknownTag + 50) :=
  c10_unknown_type_treated_as_transient initState evUnknownTag
    (fun s hs => by
      simp [resolvedTypeValue, evUnknownTag] at hs
      subst hs
      constructor <;> decide)
    (fun n hn => by simp [resolvedTypeValue, evUnknownTag] at hn)

end BetterHaptics
